import Mathlib

/-!
Verification of the conversation-window, streaming and persistence logic of
`server.py` (a single-user DeepSeek chat client).

The Python functions are shallowly embedded as Lean functions:

* `trim_conversation`, `prepare_api_messages`, `save_conversation` (its
  chunking of the serialized string), `call_deepseek_api_stream` (as a pure
  function of the modelled HTTP outcome), `load_profile` (as a pure function
  of the modelled state of `profile.json`) and `respond` (as a pure function
  whose record result lists the yielded conversations and the side effects).
* `count_tokens` wraps the external `tiktoken` encoder; it is modelled as an
  arbitrary function `String → Nat`, passed explicitly to every definition
  that uses it.  Witnesses instantiate it with `String.length`.
* Strings written to disk are modelled as the values handed to `write`; file
  system, network and clock are outside the embedding.
-/

namespace DeepseekApi

/-- Token ceiling for one outbound request (`MAX_TOKENS = 4000`). -/
def MAX_TOKENS : Nat := 4000

/-- Cap on the number of history turns considered (`MAX_HISTORY_ITEMS = 20`). -/
def MAX_HISTORY_ITEMS : Nat := 20

/-- Chunking threshold for saved transcripts (`MAX_CONVERSATION_LENGTH = 10000`). -/
def MAX_CONVERSATION_LENGTH : Nat := 10000

/-- One completed exchange: `(user_message, bot_message)`. -/
abbrev Turn := String × String

/-- A chat history: chronologically ordered list of turns. -/
abbrev Conversation := List Turn

/-- Token cost of one turn: `count_tokens(user_msg) + count_tokens(bot_msg)`. -/
def turnTokens (count_tokens : String → Nat) (t : Turn) : Nat :=
  count_tokens t.1 + count_tokens t.2

/-- Total token cost of a conversation: sum of its turns' costs. -/
def conversationTokens (count_tokens : String → Nat) (c : Conversation) : Nat :=
  (c.map (turnTokens count_tokens)).sum

@[simp] theorem conversationTokens_nil (count_tokens : String → Nat) :
    conversationTokens count_tokens [] = 0 := rfl

@[simp] theorem conversationTokens_cons (count_tokens : String → Nat)
    (t : Turn) (c : Conversation) :
    conversationTokens count_tokens (t :: c) =
      turnTokens count_tokens t + conversationTokens count_tokens c := by
  simp [conversationTokens]

theorem conversationTokens_append (count_tokens : String → Nat)
    (c₁ c₂ : Conversation) :
    conversationTokens count_tokens (c₁ ++ c₂) =
      conversationTokens count_tokens c₁ + conversationTokens count_tokens c₂ := by
  simp [conversationTokens]

theorem conversationTokens_reverse (count_tokens : String → Nat)
    (c : Conversation) :
    conversationTokens count_tokens c.reverse = conversationTokens count_tokens c := by
  simp [conversationTokens, List.sum_reverse]

/-- The loop body of `trim_conversation`: the Python code walks
`reversed(conversation)` (newest turn first) keeping a running `total_tokens`
and a `trimmed` list into which each kept turn is inserted at position 0;
it breaks at the first turn whose addition would push the total over
`max_tokens`.  Here `r` is the reversed conversation still to process and
`total` the running total. -/
def trimGo (count_tokens : String → Nat) (max_tokens : Nat) :
    List Turn → Nat → List Turn
  | [], _ => []
  | item :: rest, total =>
    let item_tokens := turnTokens count_tokens item
    if max_tokens < total + item_tokens then []
    else trimGo count_tokens max_tokens rest (total + item_tokens) ++ [item]

/-- `trim_conversation` from `server.py`. -/
def trim_conversation (count_tokens : String → Nat)
    (conversation : Conversation) (max_tokens : Nat) : Conversation :=
  trimGo count_tokens max_tokens conversation.reverse 0

/-- The loop keeps a reversed-order front segment of its input. -/
theorem trimGo_take (count_tokens : String → Nat) (max_tokens : Nat) :
    ∀ (r : List Turn) (total : Nat), ∃ k, k ≤ r.length ∧
      trimGo count_tokens max_tokens r total = (r.take k).reverse
  | [], _ => ⟨0, by simp [trimGo]⟩
  | item :: rest, total => by
    rw [trimGo]
    by_cases h : max_tokens < total + turnTokens count_tokens item
    · exact ⟨0, by simp [h]⟩
    · obtain ⟨k, hk, hek⟩ :=
        trimGo_take count_tokens max_tokens rest (total + turnTokens count_tokens item)
      refine ⟨k + 1, by simpa using hk, ?_⟩
      simp [h, hek, List.take_succ_cons]

/-- The loop never pushes the running total over the budget. -/
theorem trimGo_cost (count_tokens : String → Nat) (max_tokens : Nat) :
    ∀ (r : List Turn) (total : Nat), total ≤ max_tokens →
      total + conversationTokens count_tokens (trimGo count_tokens max_tokens r total)
        ≤ max_tokens
  | [], _, h => by simpa [trimGo] using h
  | item :: rest, total, h => by
    rw [trimGo]
    by_cases hc : max_tokens < total + turnTokens count_tokens item
    · simpa [hc] using h
    · have := trimGo_cost count_tokens max_tokens rest
        (total + turnTokens count_tokens item) (Nat.le_of_not_lt hc)
      simp only [hc, if_false, conversationTokens_append, conversationTokens_cons,
        conversationTokens_nil]
      omega

/-- Maximality of the kept segment: any front segment of the reversed list
that fits the remaining budget is no longer than what the loop keeps. -/
theorem trimGo_maximal (count_tokens : String → Nat) (max_tokens : Nat) :
    ∀ (r : List Turn) (total j : Nat),
      total + conversationTokens count_tokens (r.take j) ≤ max_tokens →
      min j r.length ≤ (trimGo count_tokens max_tokens r total).length
  | [], _, _, _ => by simp
  | item :: rest, total, 0, _ => by simp
  | item :: rest, total, j + 1, h => by
    rw [List.take_succ_cons, conversationTokens_cons] at h
    have hc : ¬ max_tokens < total + turnTokens count_tokens item := by omega
    have ih := trimGo_maximal count_tokens max_tokens rest
      (total + turnTokens count_tokens item) j (by omega)
    rw [trimGo]
    simp only [hc, if_false, List.length_append, List.length_cons, List.length_nil]
    omega

/-- C1: `trim_conversation` returns a contiguous, order-preserved suffix of
the conversation, its total token cost is at most the budget, and it is the
longest suffix with cost within the budget (the newest-to-oldest walk stops
at the first overflowing turn, so no longer suffix can fit). -/
theorem trim_conversation_correct (count_tokens : String → Nat)
    (conversation : Conversation) (max_tokens : Nat) :
    trim_conversation count_tokens conversation max_tokens <:+ conversation ∧
    conversationTokens count_tokens
        (trim_conversation count_tokens conversation max_tokens) ≤ max_tokens ∧
    ∀ s, s <:+ conversation → conversationTokens count_tokens s ≤ max_tokens →
      s.length ≤ (trim_conversation count_tokens conversation max_tokens).length := by
  refine ⟨?_, ?_, ?_⟩
  · obtain ⟨k, hk, hek⟩ := trimGo_take count_tokens max_tokens conversation.reverse 0
    rw [trim_conversation, hek]
    have h1 : (conversation.reverse.take k) <+: conversation.reverse :=
      List.take_prefix k conversation.reverse
    have h2 := List.reverse_suffix.2 h1
    rwa [List.reverse_reverse] at h2
  · simpa using trimGo_cost count_tokens max_tokens conversation.reverse 0
      (Nat.zero_le _)
  · intro s hs hcost
    have hp : s.reverse <+: conversation.reverse := List.reverse_prefix.2 hs
    have hs_eq : s.reverse = conversation.reverse.take s.reverse.length :=
      List.prefix_iff_eq_take.1 hp
    have hlen : s.length ≤ conversation.length := hs.length_le
    have h := trimGo_maximal count_tokens max_tokens conversation.reverse 0 s.length
      (by
        rw [List.length_reverse] at hs_eq
        rw [← hs_eq, conversationTokens_reverse]
        simpa using hcost)
    rw [trim_conversation]
    simpa [Nat.min_eq_left, hlen] using h

/-- Closed instance of C1: at a concrete tokenizer, conversation, budget and
candidate suffix, the trimmed result is a suffix within budget and at least
as long as the candidate. -/
theorem trim_conversation_correct_witness :
    trim_conversation String.length [(("a"), ("b")), (("cc"), ("dd"))] 4
        <:+ [(("a"), ("b")), (("cc"), ("dd"))] ∧
    conversationTokens String.length
        (trim_conversation String.length [(("a"), ("b")), (("cc"), ("dd"))] 4) ≤ 4 ∧
    [(("cc"), ("dd"))].length ≤
      (trim_conversation String.length [(("a"), ("b")), (("cc"), ("dd"))] 4).length := by
  obtain ⟨h1, h2, h3⟩ :=
    trim_conversation_correct String.length [(("a"), ("b")), (("cc"), ("dd"))] 4
  exact ⟨h1, h2, h3 [(("cc"), ("dd"))] ⟨[(("a"), ("b"))], rfl⟩ (by decide)⟩

/-- The persona record stored under the key `my_profile` of `profile.json`.
`memory` entries are arbitrary JSON records in the source; only the list
itself matters here, so entries are modelled as strings. -/
structure Profile where
  name : String
  age : Nat
  profession : String
  interests : List String
  memory : List String
  deriving DecidableEq

/-- A role of an API-facing message. -/
inductive Role
  | system
  | user
  | assistant
  deriving DecidableEq

/-- An API-facing message `{role, content}`. -/
structure Message where
  role : Role
  content : String
  deriving DecidableEq

/-- Total token cost of a message list: sum over messages of
`count_tokens(content)`. -/
def messagesTokens (count_tokens : String → Nat) (msgs : List Message) : Nat :=
  (msgs.map (fun m => count_tokens m.content)).sum

@[simp] theorem messagesTokens_nil (count_tokens : String → Nat) :
    messagesTokens count_tokens [] = 0 := rfl

@[simp] theorem messagesTokens_cons (count_tokens : String → Nat)
    (m : Message) (msgs : List Message) :
    messagesTokens count_tokens (m :: msgs) =
      count_tokens m.content + messagesTokens count_tokens msgs := by
  simp [messagesTokens]

theorem messagesTokens_append (count_tokens : String → Nat)
    (l₁ l₂ : List Message) :
    messagesTokens count_tokens (l₁ ++ l₂) =
      messagesTokens count_tokens l₁ + messagesTokens count_tokens l₂ := by
  simp [messagesTokens]

/-- The content of the system prompt built by `prepare_api_messages`: the
f-string (a triple-quoted literal, hence the embedded indentation)
interpolating the profile's name, age, profession and comma-joined
interests. -/
def system_content (profile : Profile) : String :=
  "你正在与" ++ profile.name ++ "对话:\n        年龄: " ++ toString profile.age ++
    "\n        职业: " ++ profile.profession ++
    "\n        兴趣: " ++ String.intercalate (", ") profile.interests

/-- The history loop of `prepare_api_messages`: walk the retained turns in
chronological order, converting each turn into a user message followed by an
assistant message, keeping a running `tokens_used`, and breaking at the first
turn whose cost would push the total over `MAX_TOKENS`.  Returns the produced
messages together with the final `tokens_used`. -/
def history_messages (count_tokens : String → Nat) :
    List Turn → Nat → List Message × Nat
  | [], tokens_used => ([], tokens_used)
  | (user_msg, bot_msg) :: rest, tokens_used =>
    let new_tokens := count_tokens user_msg + count_tokens bot_msg
    if MAX_TOKENS < tokens_used + new_tokens then ([], tokens_used)
    else
      let r := history_messages count_tokens rest (tokens_used + new_tokens)
      (⟨Role.user, user_msg⟩ :: ⟨Role.assistant, bot_msg⟩ :: r.1, r.2)

/-- The at-most-`MAX_HISTORY_ITEMS` most recent turns: `conversation[-20:]`. -/
def last_history (conversation : Conversation) : Conversation :=
  conversation.drop (conversation.length - MAX_HISTORY_ITEMS)

/-- The state of `prepare_api_messages` just before the final new-message
check: the system prompt followed by the messages produced by the history
loop, paired with the running `tokens_used` (system prompt cost plus cost of
the included turns). -/
def prepare_base (count_tokens : String → Nat)
    (conversation : Conversation) (profile : Profile) : List Message × Nat :=
  let r := history_messages count_tokens (last_history conversation)
    (count_tokens (system_content profile))
  (⟨Role.system, system_content profile⟩ :: r.1, r.2)

/-- `prepare_api_messages` from `server.py`: system prompt, bounded recent
history, then the new user message only when `count_tokens(new_message) +
tokens_used < MAX_TOKENS`. -/
def prepare_api_messages (count_tokens : String → Nat)
    (conversation : Conversation) (profile : Profile)
    (new_message : String) : List Message :=
  let base := prepare_base count_tokens conversation profile
  if count_tokens new_message + base.2 < MAX_TOKENS then
    base.1 ++ [⟨Role.user, new_message⟩]
  else
    base.1

/-- The final `tokens_used` of the history loop accounts exactly for the
initial value plus the cost of the produced messages. -/
theorem history_messages_used (count_tokens : String → Nat) :
    ∀ (turns : List Turn) (tokens_used : Nat),
      (history_messages count_tokens turns tokens_used).2 =
        tokens_used +
          messagesTokens count_tokens (history_messages count_tokens turns tokens_used).1
  | [], tokens_used => by simp [history_messages]
  | (user_msg, bot_msg) :: rest, tokens_used => by
    rw [history_messages]
    by_cases h : MAX_TOKENS < tokens_used + (count_tokens user_msg + count_tokens bot_msg)
    · simp [h]
    · have ih := history_messages_used count_tokens rest
        (tokens_used + (count_tokens user_msg + count_tokens bot_msg))
      simp only [h, if_false, messagesTokens_cons]
      omega

/-- The history loop never pushes `tokens_used` over `MAX_TOKENS`. -/
theorem history_messages_le (count_tokens : String → Nat) :
    ∀ (turns : List Turn) (tokens_used : Nat), tokens_used ≤ MAX_TOKENS →
      (history_messages count_tokens turns tokens_used).2 ≤ MAX_TOKENS
  | [], tokens_used, h => by simpa [history_messages] using h
  | (user_msg, bot_msg) :: rest, tokens_used, h => by
    rw [history_messages]
    by_cases hc : MAX_TOKENS < tokens_used + (count_tokens user_msg + count_tokens bot_msg)
    · simpa [hc] using h
    · have ih := history_messages_le count_tokens rest
        (tokens_used + (count_tokens user_msg + count_tokens bot_msg))
        (Nat.le_of_not_lt hc)
      simpa [hc] using ih

/-- Every message produced by the history loop has role user or assistant. -/
theorem history_messages_roles (count_tokens : String → Nat) :
    ∀ (turns : List Turn) (tokens_used : Nat),
      ∀ m ∈ (history_messages count_tokens turns tokens_used).1,
        m.role = Role.user ∨ m.role = Role.assistant
  | [], _, m, hm => by simp [history_messages] at hm
  | (user_msg, bot_msg) :: rest, tokens_used, m, hm => by
    rw [history_messages] at hm
    by_cases hc : MAX_TOKENS < tokens_used + (count_tokens user_msg + count_tokens bot_msg)
    · simp [hc] at hm
    · simp only [hc, if_false, List.mem_cons] at hm
      rcases hm with hm | hm | hm
      · exact Or.inl (by simp [hm])
      · exact Or.inr (by simp [hm])
      · exact history_messages_roles count_tokens rest
          (tokens_used + (count_tokens user_msg + count_tokens bot_msg)) m hm

/-- The messages produced by the history loop are, verbatim, the user and
assistant messages of an initial run of the processed turns. -/
theorem history_messages_shape (count_tokens : String → Nat) :
    ∀ (turns : List Turn) (tokens_used : Nat),
      ∃ pairs : List Turn, pairs <+: turns ∧
        (history_messages count_tokens turns tokens_used).1 =
          pairs.flatMap (fun p => [⟨Role.user, p.1⟩, ⟨Role.assistant, p.2⟩])
  | [], _ => ⟨[], by simp [history_messages]⟩
  | (user_msg, bot_msg) :: rest, tokens_used => by
    rw [history_messages]
    by_cases hc : MAX_TOKENS < tokens_used + (count_tokens user_msg + count_tokens bot_msg)
    · exact ⟨[], by simp [hc]⟩
    · obtain ⟨pairs, hp, he⟩ := history_messages_shape count_tokens rest
        (tokens_used + (count_tokens user_msg + count_tokens bot_msg))
      refine ⟨(user_msg, bot_msg) :: pairs, ?_, ?_⟩
      · exact (List.prefix_cons_inj _).2 hp
      · simp [hc, he]

/-- C2 (amended): the list built by `prepare_api_messages` unconditionally
begins with exactly one system message (no other message has role system);
and provided the system prompt alone costs at most `MAX_TOKENS`, the total
token cost of the returned list never exceeds `MAX_TOKENS`.  (Without that
proviso the bound fails: the system prompt is added regardless of its cost,
see the counterexample.) -/
theorem prepare_api_messages_budget (count_tokens : String → Nat)
    (conversation : Conversation) (profile : Profile) (new_message : String) :
    (∃ rest, prepare_api_messages count_tokens conversation profile new_message =
        ⟨Role.system, system_content profile⟩ :: rest ∧
        ∀ m ∈ rest, m.role ≠ Role.system) ∧
    (count_tokens (system_content profile) ≤ MAX_TOKENS →
      messagesTokens count_tokens
          (prepare_api_messages count_tokens conversation profile new_message)
        ≤ MAX_TOKENS) := by
  have hused := history_messages_used count_tokens (last_history conversation)
    (count_tokens (system_content profile))
  have hroles := history_messages_roles count_tokens (last_history conversation)
    (count_tokens (system_content profile))
  by_cases hc : count_tokens new_message +
      (history_messages count_tokens (last_history conversation)
        (count_tokens (system_content profile))).2 < MAX_TOKENS
  · constructor
    · refine ⟨(history_messages count_tokens (last_history conversation)
          (count_tokens (system_content profile))).1 ++ [⟨Role.user, new_message⟩],
        ?_, ?_⟩
      · simp [prepare_api_messages, prepare_base, hc]
      · intro m hm
        rcases List.mem_append.1 hm with hm | hm
        · rcases hroles m hm with h' | h' <;> simp [h']
        · simp only [List.mem_singleton] at hm
          simp [hm]
    · intro h
      have hle := history_messages_le count_tokens (last_history conversation)
        (count_tokens (system_content profile)) h
      simp only [prepare_api_messages, prepare_base, hc, if_true, reduceIte,
        messagesTokens_append, messagesTokens_cons, messagesTokens_nil,
        List.cons_append]
      omega
  · constructor
    · refine ⟨(history_messages count_tokens (last_history conversation)
          (count_tokens (system_content profile))).1, ?_, ?_⟩
      · simp [prepare_api_messages, prepare_base, hc]
      · intro m hm
        rcases hroles m hm with h' | h' <;> simp [h']
    · intro h
      have hle := history_messages_le count_tokens (last_history conversation)
        (count_tokens (system_content profile)) h
      simp only [prepare_api_messages, prepare_base, hc, if_false, reduceIte,
        messagesTokens_cons]
      omega

/-- Closed instance of C2 (amended): with a small profile the assembled
request stays within the token ceiling. -/
theorem prepare_api_messages_budget_witness :
    messagesTokens String.length
        (prepare_api_messages String.length [] ⟨("u"), 20, ("p"), [("i")], []⟩ ("hi"))
      ≤ MAX_TOKENS :=
  (prepare_api_messages_budget String.length []
    ⟨("u"), 20, ("p"), [("i")], []⟩ ("hi")).2 (by decide)

/-- A profile whose name alone is 4001 characters long. -/
def big_profile : Profile :=
  ⟨String.mk (List.replicate 4001 'a'), 20, "未设置", ["未设置"], []⟩

/-- Counterexample to C2 as stated: the system prompt is included regardless
of its own cost, so with a 4001-character profile name (and `count_tokens`
instantiated as `String.length`) the returned list costs more than
`MAX_TOKENS = 4000` even for an empty conversation and empty new message. -/
theorem prepare_api_messages_budget_cex :
    ¬ messagesTokens String.length
        (prepare_api_messages String.length [] big_profile ("")) ≤ MAX_TOKENS := by
  have hname : big_profile.name.length = 4001 := by
    show (List.replicate 4001 'a').length = 4001
    exact List.length_replicate 4001 'a'
  have hsys : 4001 ≤ (system_content big_profile).length := by
    rw [system_content]
    simp only [String.length_append]
    omega
  have hmax : MAX_TOKENS = 4000 := rfl
  have hempty : String.length ("") = 0 := rfl
  have hbase : prepare_base String.length [] big_profile =
      ([⟨Role.system, system_content big_profile⟩],
        (system_content big_profile).length) := rfl
  have hpre : prepare_api_messages String.length [] big_profile ("") =
      [⟨Role.system, system_content big_profile⟩] := by
    rw [prepare_api_messages, hbase]
    rw [if_neg (by omega)]
  rw [hpre]
  simp only [messagesTokens_cons, messagesTokens_nil]
  omega

/-- C3: `prepare_api_messages` appends the new user message exactly when its
token cost plus the running total (`tokens_used` after the system prompt and
included history, i.e. `(prepare_base ...).2`) is strictly below `MAX_TOKENS`;
otherwise it returns the base list unchanged, with no message appended. -/
theorem prepare_api_messages_new_message (count_tokens : String → Nat)
    (conversation : Conversation) (profile : Profile) (new_message : String) :
    (count_tokens new_message + (prepare_base count_tokens conversation profile).2
        < MAX_TOKENS →
      prepare_api_messages count_tokens conversation profile new_message =
        (prepare_base count_tokens conversation profile).1 ++
          [⟨Role.user, new_message⟩]) ∧
    (¬ count_tokens new_message + (prepare_base count_tokens conversation profile).2
        < MAX_TOKENS →
      prepare_api_messages count_tokens conversation profile new_message =
        (prepare_base count_tokens conversation profile).1) := by
  constructor <;> intro hc <;> simp [prepare_api_messages, hc]

/-- Closed instance of C3: a short new message fits the budget and is
appended as the final user message. -/
theorem prepare_api_messages_new_message_witness :
    prepare_api_messages String.length [] ⟨("u"), 20, ("p"), [("i")], []⟩ ("hi") =
      (prepare_base String.length [] ⟨("u"), 20, ("p"), [("i")], []⟩).1 ++
        [⟨Role.user, ("hi")⟩] :=
  (prepare_api_messages_new_message String.length []
    ⟨("u"), 20, ("p"), [("i")], []⟩ ("hi")).1 (by decide)

/-- C9: shape of the list built by `prepare_api_messages`: one system message,
then consecutive user/assistant pairs taken verbatim from an initial run of
the retained most-recent turns (themselves a suffix of the conversation),
optionally followed by one final user message carrying the new message; and
every role is system, user or assistant. -/
theorem prepare_api_messages_shape (count_tokens : String → Nat)
    (conversation : Conversation) (profile : Profile) (new_message : String) :
    last_history conversation <:+ conversation ∧
    (∃ (pairs : List Turn) (tail : List Message),
      pairs <+: last_history conversation ∧
      (tail = [] ∨ tail = [⟨Role.user, new_message⟩]) ∧
      prepare_api_messages count_tokens conversation profile new_message =
        ⟨Role.system, system_content profile⟩ ::
          (pairs.flatMap (fun p => [⟨Role.user, p.1⟩, ⟨Role.assistant, p.2⟩]) ++ tail)) ∧
    ∀ m ∈ prepare_api_messages count_tokens conversation profile new_message,
      m.role = Role.system ∨ m.role = Role.user ∨ m.role = Role.assistant := by
  refine ⟨List.drop_suffix _ _, ?_, ?_⟩
  · obtain ⟨pairs, hp, he⟩ := history_messages_shape count_tokens
      (last_history conversation) (count_tokens (system_content profile))
    by_cases hc : count_tokens new_message +
        (history_messages count_tokens (last_history conversation)
          (count_tokens (system_content profile))).2 < MAX_TOKENS
    · exact ⟨pairs, [⟨Role.user, new_message⟩], hp, Or.inr rfl,
        by simp [prepare_api_messages, prepare_base, hc, he]⟩
    · exact ⟨pairs, [], hp, Or.inl rfl,
        by simp [prepare_api_messages, prepare_base, hc, he]⟩
  · intro m _
    rcases m with ⟨r, c⟩
    cases r
    · exact Or.inl rfl
    · exact Or.inr (Or.inl rfl)
    · exact Or.inr (Or.inr rfl)

/-- The serialized conversation (`conversation_str = json.dumps(...)`),
modelled as its sequence of characters. -/
abbrev Serialized := List Char

/-- The slice written into part-file `i+1` when the transcript is split:
`conversation_str[i*MAX_CONVERSATION_LENGTH : (i+1)*MAX_CONVERSATION_LENGTH]`. -/
def part_slice (conversation_str : Serialized) (i : Nat) : Serialized :=
  (conversation_str.drop (i * MAX_CONVERSATION_LENGTH)).take MAX_CONVERSATION_LENGTH

/-- The file contents written by `save_conversation`, in ascending numeric
suffix order: when the serialization exceeds `MAX_CONVERSATION_LENGTH` it is
split into `len // MAX_CONVERSATION_LENGTH + 1` consecutive slices, otherwise
a single file holds the whole serialization. -/
def save_conversation_files (conversation_str : Serialized) : List Serialized :=
  if MAX_CONVERSATION_LENGTH < conversation_str.length then
    let parts := conversation_str.length / MAX_CONVERSATION_LENGTH + 1
    (List.range parts).map (part_slice conversation_str)
  else
    [conversation_str]

/-- Concatenating the first `k` consecutive slices of width `M` recovers the
first `k * M` characters. -/
theorem flatten_slices (s : Serialized) (M : Nat) :
    ∀ k : Nat,
      ((List.range k).map (fun i => (s.drop (i * M)).take M)).flatten =
        s.take (k * M)
  | 0 => by simp
  | k + 1 => by
    rw [List.range_succ, List.map_append, List.flatten_append,
      flatten_slices s M k]
    simp only [List.map_cons, List.map_nil, List.flatten_cons, List.flatten_nil,
      List.append_nil]
    rw [Nat.succ_mul, List.take_add]

/-- C4: reassembling the part-files written by `save_conversation` in
ascending numeric suffix order yields the original serialization exactly;
the number of files is `len // MAX_CONVERSATION_LENGTH + 1` when the
serialization exceeds the threshold and 1 (the single file holding exactly
the serialization) otherwise. -/
theorem save_conversation_round_trip (conversation_str : Serialized) :
    (save_conversation_files conversation_str).flatten = conversation_str ∧
    (save_conversation_files conversation_str).length =
      (if MAX_CONVERSATION_LENGTH < conversation_str.length
        then conversation_str.length / MAX_CONVERSATION_LENGTH + 1 else 1) := by
  by_cases h : MAX_CONVERSATION_LENGTH < conversation_str.length
  · constructor
    · have hlen : conversation_str.length ≤
          (conversation_str.length / MAX_CONVERSATION_LENGTH + 1) *
            MAX_CONVERSATION_LENGTH := by
        simp only [MAX_CONVERSATION_LENGTH]
        omega
      rw [save_conversation_files, if_pos h]
      rw [show part_slice conversation_str =
        (fun i => ((conversation_str.drop (i * MAX_CONVERSATION_LENGTH)).take
          MAX_CONVERSATION_LENGTH)) from rfl]
      rw [flatten_slices]
      exact List.take_of_length_le hlen
    · rw [save_conversation_files, if_pos h, if_pos h]
      simp
  · constructor
    · rw [save_conversation_files, if_neg h]
      simp
    · rw [save_conversation_files, if_neg h, if_neg h]
      simp

/-- One line of the server-sent-event body, classified the way the loop of
`call_deepseek_api_stream` inspects it: empty lines are skipped (`if line:`);
lines not starting with `data:` are skipped; a `data:` payload equal to
`[DONE]` is skipped; a `data:` payload that is not valid JSON raises
`JSONDecodeError`, which the inner `try` swallows; a parsed chunk without a
non-empty `choices` list contributes nothing; a parsed chunk with choices
carries `choices[0].delta.content` (the empty string when the key is
absent). -/
inductive SSELine
  | empty
  | other (s : String)
  | done
  | malformed (s : String)
  | noChoices
  | chunk (content : String)
  deriving DecidableEq

/-- The fragments one body line contributes: only a parsed chunk with a
non-empty content string yields. -/
def process_line : SSELine → List String
  | SSELine.chunk content => if content = "" then [] else [content]
  | _ => []

/-- The fragments yielded while iterating `response.iter_lines()`. -/
def process_lines (lines : List SSELine) : List String :=
  lines.flatMap process_line

/-- The outcome of the `requests.post` call, as observed by
`call_deepseek_api_stream`: either a response (status code plus body lines)
or a raised exception with message `str(e)`. -/
inductive ApiOutcome
  | response (status_code : Nat) (lines : List SSELine)
  | exn (message : String)
  deriving DecidableEq

/-- Is this outcome a failure (non-200 status or raised exception)? -/
def ApiOutcome.isFailure : ApiOutcome → Prop
  | ApiOutcome.response status_code _ => status_code ≠ 200
  | ApiOutcome.exn _ => True

instance : DecidablePred ApiOutcome.isFailure := fun o => by
  cases o <;> simp only [ApiOutcome.isFailure] <;> infer_instance

/-- `call_deepseek_api_stream` from `server.py`, as a function of the
modelled HTTP outcome: on a 200 response the body lines are processed into
content fragments; on any other status a single `[API 错误]` diagnostic is
yielded; on a raised exception a single `[连接错误]` diagnostic is yielded.
The Python generator catches every exception, so the embedding is a total
function into a fragment list. -/
def call_deepseek_api_stream (outcome : ApiOutcome) : List String :=
  match outcome with
  | ApiOutcome.response status_code lines =>
    if status_code = 200 then process_lines lines
    else [("[API 错误] 状态码: ") ++ toString status_code]
  | ApiOutcome.exn e => [("[连接错误] ") ++ e]

/-- C5: on a response with a non-success status the stream yields exactly one
fragment — a diagnostic containing the status code — and nothing further. -/
theorem stream_http_error (status_code : Nat) (lines : List SSELine)
    (h : status_code ≠ 200) :
    call_deepseek_api_stream (ApiOutcome.response status_code lines) =
      [("[API 错误] 状态码: ") ++ toString status_code] ∧
    (call_deepseek_api_stream (ApiOutcome.response status_code lines)).length = 1 ∧
    ∃ before after : String,
      ("[API 错误] 状态码: ") ++ toString status_code =
        before ++ toString status_code ++ after := by
  rw [call_deepseek_api_stream, if_neg h]
  exact ⟨rfl, rfl, ("[API 错误] 状态码: "), (""), by simp⟩

/-- Closed instance of C5: a 500 response yields exactly the one diagnostic
fragment, which contains the digits 500. -/
theorem stream_http_error_witness :
    call_deepseek_api_stream (ApiOutcome.response 500 [SSELine.chunk ("hi")]) =
      [("[API 错误] 状态码: ") ++ toString 500] ∧
    (call_deepseek_api_stream
        (ApiOutcome.response 500 [SSELine.chunk ("hi")])).length = 1 :=
  ⟨(stream_http_error 500 [SSELine.chunk ("hi")] (by decide)).1,
    (stream_http_error 500 [SSELine.chunk ("hi")] (by decide)).2.1⟩

/-- C6: the stream never propagates an exception — the embedding is total —
and every failure outcome (non-success status or transport exception) is
communicated in-band as exactly one yielded diagnostic fragment. -/
theorem stream_failure_in_band (outcome : ApiOutcome)
    (h : outcome.isFailure ) :
    (call_deepseek_api_stream outcome).length = 1 ∧
    ∃ rest : String,
      call_deepseek_api_stream outcome = [("[API 错误] 状态码: ") ++ rest] ∨
      call_deepseek_api_stream outcome = [("[连接错误] ") ++ rest] := by
  cases outcome with
  | response status_code lines =>
    have hs : status_code ≠ 200 := h
    rw [call_deepseek_api_stream, if_neg hs]
    exact ⟨rfl, toString status_code, Or.inl rfl⟩
  | exn e =>
    exact ⟨rfl, e, Or.inr rfl⟩

/-- Closed instance of C6: a transport exception is reported as a single
in-band `[连接错误]` fragment. -/
theorem stream_failure_in_band_witness :
    (call_deepseek_api_stream (ApiOutcome.exn ("timeout"))).length = 1 :=
  (stream_failure_in_band (ApiOutcome.exn ("timeout")) trivial).1

/-- The state of `profile.json` as observed by `load_profile`: the file is
missing (`FileNotFoundError`), present but unreadable or unparsable (any
other exception), or parses to a record whose `my_profile` value is the given
profile. -/
inductive ProfileFile
  | missing
  | invalid
  | found (p : Profile)
  deriving DecidableEq

/-- The default profile `load_profile` creates on first run. -/
def default_profile : Profile :=
  { name := "用户"
    age := 20
    profession := "未设置"
    interests := ["未设置"]
    memory := [] }

/-- Result of `load_profile`: the returned value (`none` models Python's
`None` failure indicator) and the profile written back to `profile.json`, if
any. -/
structure LoadResult where
  result : Option Profile
  written : Option Profile
  deriving DecidableEq

/-- `load_profile` from `server.py`: a missing file self-heals by writing the
default profile and returning it; any other failure returns `None` and writes
nothing; a parsed file returns its `my_profile` record. -/
def load_profile : ProfileFile → LoadResult
  | ProfileFile.missing => ⟨some default_profile, some default_profile⟩
  | ProfileFile.invalid => ⟨none, none⟩
  | ProfileFile.found p => ⟨some p, none⟩

/-- C7: when `profile.json` is absent, `load_profile` writes the default
profile — name 用户, age 20, profession 未设置, interests [未设置], empty
memory — to the expected location and returns that same record rather than a
failure indicator. -/
theorem load_profile_missing :
    load_profile ProfileFile.missing =
      ⟨some default_profile, some default_profile⟩ ∧
    default_profile = ⟨("用户"), 20, ("未设置"), [("未设置")], []⟩ :=
  ⟨rfl, rfl⟩

/-- Python's `not message.strip()` test in `respond`: true exactly when every
character of the message is whitespace (so stripping leaves the empty
string). -/
def strip_empty (message : String) : Bool :=
  message.data.all Char.isWhitespace

/-- The observable behaviour of one `respond` call: the successive
conversations it yields, whether a training snapshot was written, the
transcript written (if any), and whether the streaming API was called. -/
structure RespondResult where
  yields : List Conversation
  training_saved : Bool
  conversation_saved : Option Conversation
  api_called : Bool
  deriving DecidableEq

/-- The conversations yielded from inside the streaming loop of `respond`,
one per fragment, each showing the prior trimmed turns plus the in-progress
turn with the bot text accumulated so far. -/
def stream_yields (trimmed_history : Conversation) (message : String) :
    List String → String → List Conversation
  | [], _ => []
  | chunk :: rest, bot_message =>
    (trimmed_history ++ [(message, bot_message ++ chunk)]) ::
      stream_yields trimmed_history message rest (bot_message ++ chunk)

/-- `respond` from `server.py`, on its non-raising paths: a blank message is
bounced back immediately with no side effect; otherwise a training snapshot
is saved, the history is trimmed to half the token ceiling, each streamed
fragment is forwarded as a growing conversation, and the final conversation
is saved and yielded. -/
def respond (count_tokens : String → Nat) (message : String)
    (chat_history : Conversation) (profile : Profile)
    (outcome : ApiOutcome) : RespondResult :=
  if strip_empty message then
    ⟨[chat_history], false, none, false⟩
  else
    let trimmed_history := trim_conversation count_tokens chat_history (MAX_TOKENS / 2)
    let chunks := call_deepseek_api_stream outcome
    let full_conversation := trimmed_history ++ [(message, String.join chunks)]
    ⟨stream_yields trimmed_history message chunks ("") ++ [full_conversation],
      true, some full_conversation, true⟩

/-- C8: a message that is empty or all whitespace makes `respond` yield the
prior history unchanged, exactly once, with no training snapshot, no
transcript and no API call. -/
theorem respond_blank (count_tokens : String → Nat) (message : String)
    (chat_history : Conversation) (profile : Profile) (outcome : ApiOutcome)
    (h : strip_empty message = true) :
    respond count_tokens message chat_history profile outcome =
      ⟨[chat_history], false, none, false⟩ := by
  rw [respond]
  simp [h]

/-- Closed instance of C8: a whitespace-only message is a no-op turn. -/
theorem respond_blank_witness :
    respond String.length ("  ") [(("x"), ("y"))]
        ⟨("u"), 20, ("p"), [("i")], []⟩ (ApiOutcome.exn ("down")) =
      ⟨[[(("x"), ("y"))]], false, none, false⟩ :=
  respond_blank String.length ("  ") [(("x"), ("y"))]
    ⟨("u"), 20, ("p"), [("i")], []⟩ (ApiOutcome.exn ("down")) (by decide)

/-- Every conversation yielded from inside the streaming loop is the trimmed
history plus one in-progress turn for the message. -/
theorem stream_yields_shape (trimmed_history : Conversation) (message : String) :
    ∀ (chunks : List String) (bot_message : String),
      ∀ y ∈ stream_yields trimmed_history message chunks bot_message,
        ∃ bot, y = trimmed_history ++ [(message, bot)]
  | [], _, y, hy => by simp [stream_yields] at hy
  | chunk :: rest, bot_message, y, hy => by
    rw [stream_yields] at hy
    rcases List.mem_cons.1 hy with hy | hy
    · exact ⟨bot_message ++ chunk, hy⟩
    · exact stream_yields_shape trimmed_history message rest (bot_message ++ chunk) y hy

/-- C10: for a non-blank message, the last conversation `respond` yields is
the trimmed prior history (`trim_conversation` at half the token ceiling)
with exactly one appended turn whose user part is the message and whose bot
part is the concatenation, in yield order, of all stream fragments; moreover
every yielded conversation (intermediate ones included) consists of those
trimmed prior turns unchanged plus one in-progress turn for the message.
The transcript saved at the end is that same final conversation. -/
theorem respond_stream (count_tokens : String → Nat) (message : String)
    (chat_history : Conversation) (profile : Profile) (outcome : ApiOutcome)
    (h : strip_empty message = false) :
    (respond count_tokens message chat_history profile outcome).yields.getLast? =
      some (trim_conversation count_tokens chat_history (MAX_TOKENS / 2) ++
        [(message, String.join (call_deepseek_api_stream outcome))]) ∧
    (respond count_tokens message chat_history profile outcome).conversation_saved =
      some (trim_conversation count_tokens chat_history (MAX_TOKENS / 2) ++
        [(message, String.join (call_deepseek_api_stream outcome))]) ∧
    ∀ y ∈ (respond count_tokens message chat_history profile outcome).yields,
      ∃ bot, y = trim_conversation count_tokens chat_history (MAX_TOKENS / 2) ++
        [(message, bot)] := by
  rw [respond]
  simp only [h, Bool.false_eq_true, if_false, reduceIte]
  refine ⟨List.getLast?_concat _, by trivial, ?_⟩
  intro y hy
  rcases List.mem_append.1 hy with hy | hy
  · exact stream_yields_shape _ message (call_deepseek_api_stream outcome) ("") y hy
  · simp only [List.mem_singleton] at hy
    exact ⟨String.join (call_deepseek_api_stream outcome), hy⟩

/-- Closed instance of C10: with two streamed fragments the final yield and
the saved transcript are the trimmed history plus the turn carrying their
concatenation. -/
theorem respond_stream_witness :
    (respond String.length ("hi") [(("x"), ("y"))]
        ⟨("u"), 20, ("p"), [("i")], []⟩
        (ApiOutcome.response 200
          [SSELine.chunk ("he"), SSELine.chunk ("llo")])).yields.getLast? =
      some (trim_conversation String.length [(("x"), ("y"))] (MAX_TOKENS / 2) ++
        [(("hi"), String.join (call_deepseek_api_stream
          (ApiOutcome.response 200
            [SSELine.chunk ("he"), SSELine.chunk ("llo")])))]) :=
  (respond_stream String.length ("hi") [(("x"), ("y"))]
    ⟨("u"), 20, ("p"), [("i")], []⟩
    (ApiOutcome.response 200 [SSELine.chunk ("he"), SSELine.chunk ("llo")])
    (by decide)).1

end DeepseekApi
